import Mathlib

/-!
Verification of the batch-transfer core of the discord-object-store
repository, via a shallow embedding of the relevant Python functions.

Bytes are modelled as `List Nat`.  External library primitives
(`gzip`, `AESGCM`, `Fernet`, PBKDF2 key derivation) are modelled as
abstract operation records; the repository's own framing, slicing,
retry, status and synchronization logic is translated directly from
the sources.
-/

namespace DOS

/-- Python exception values observable from the embedded code, keyed by
exception class and message. -/
inductive PyErr where
  | valueError (msg : String)
  | encryptionError (msg : String)
  | uploadError (msg : String)
  | downloadError (msg : String)
  | storageBotError (msg : String)
deriving DecidableEq, Repr

/-- Whether an error is an `EncryptionError` (class from `src/utils.py`). -/
def PyErr.isEncryptionError : PyErr → Bool
  | .encryptionError _ => true
  | _ => false

/-- Abstract record of the external crypto/compression primitives used by
`slice_and_assemble.py` and `src/core/crypto.py`: gzip compress/decompress,
PBKDF2 key derivation, and AES-256-GCM encrypt/decrypt.  `dec` returns
`none` when AEAD authentication fails (the library raises `InvalidTag`). -/
structure AeadPrims where
  gzipC : List Nat → List Nat
  gzipD : List Nat → Option (List Nat)
  derive : String → List Nat → List Nat
  enc : List Nat → List Nat → List Nat → List Nat
  dec : List Nat → List Nat → List Nat → Option (List Nat)

/-- gzip is lossless: decompression inverts compression. -/
def AeadPrims.GzipCorrect (P : AeadPrims) : Prop :=
  ∀ x, P.gzipD (P.gzipC x) = some x

/-- AEAD functional correctness: decrypting with the same key and nonce
recovers the plaintext. -/
def AeadPrims.AeadCorrect (P : AeadPrims) : Prop :=
  ∀ k n m, P.dec k n (P.enc k n m) = some m

/-- `compress_and_encrypt_data` from `slice_and_assemble.py` (lines 73-84):
gzip-compress, then AES-256-GCM encrypt with a key derived from the
password and a fresh salt; the wire format is
salt (16 bytes) ++ nonce (12 bytes) ++ ciphertext.  The salt and nonce
(drawn from `os.urandom` in the source) are explicit arguments here. -/
def compressAndEncryptData (P : AeadPrims) (data : List Nat) (password : String)
    (salt nonce : List Nat) : List Nat :=
  salt ++ nonce ++ P.enc (P.derive password salt) nonce (P.gzipC data)

/-- `decrypt_and_decompress_data` from `slice_and_assemble.py` (lines 87-108):
check the 28-byte header, split salt/nonce/ciphertext, decrypt, then
decompress.  Each failure raises the source's `ValueError` message. -/
def decryptAndDecompressData (P : AeadPrims) (data : List Nat) (password : String) :
    Except PyErr (List Nat) :=
  if data.length < 28 then
    .error (.valueError "Data too short to be encrypted.")
  else
    let salt := data.take 16
    let nonce := (data.drop 16).take 12
    let ciphertext := data.drop 28
    match P.dec (P.derive password salt) nonce ciphertext with
    | none => .error (.valueError "Decryption failed. Wrong password or corrupted data.")
    | some compressed =>
      match P.gzipD compressed with
      | none => .error (.valueError "Decompression failed. Data may be corrupted.")
      | some out => .ok out

/-- `encrypt_data` from `src/core/crypto.py` (lines 29-45): AES-256-GCM
without the gzip stage; same salt ++ nonce ++ ciphertext wire format. -/
def encryptData (P : AeadPrims) (data : List Nat) (password : String)
    (salt nonce : List Nat) : List Nat :=
  salt ++ nonce ++ P.enc (P.derive password salt) nonce data

/-- `decrypt_data` from `src/core/crypto.py` (lines 48-77): length check,
then AEAD decryption; both wrong-password and corrupted-data failures raise
the single `ValueError` "Decryption failed. Wrong password or corrupted
data.", while short input raises a distinct `ValueError`. -/
def decryptData (P : AeadPrims) (data : List Nat) (password : String) :
    Except PyErr (List Nat) :=
  if data.length < 28 then
    .error (.valueError "Data too short to be encrypted.")
  else
    let salt := data.take 16
    let nonce := (data.drop 16).take 12
    let ciphertext := data.drop 28
    match P.dec (P.derive password salt) nonce ciphertext with
    | none => .error (.valueError "Decryption failed. Wrong password or corrupted data.")
    | some out => .ok out

/-- Concrete instantiation of the abstract primitives used to evaluate the
embedded code on concrete inputs: compression prepends a marker byte and
encryption appends the key as an authentication tag, so that decryption
with a different key (or over a tampered tag) fails exactly like AEAD. -/
def toyPrims : AeadPrims where
  gzipC x := 0 :: x
  gzipD x := match x with
    | 0 :: rest => some rest
    | _ => none
  derive pw _ := [pw.length]
  enc k _ m := m ++ k
  dec k _ c :=
    if c.length ≥ k.length ∧ c.drop (c.length - k.length) = k then
      some (c.take (c.length - k.length))
    else none

theorem toyPrims_gzipCorrect : toyPrims.GzipCorrect := by
  intro x
  rfl

theorem toyPrims_aeadCorrect : toyPrims.AeadCorrect := by
  intro k n m
  show toyPrims.dec k n (m ++ k) = some m
  have hlen : (m ++ k).length - k.length = m.length := by
    simp [List.length_append]
  simp only [toyPrims, hlen]
  rw [if_pos]
  · simp [List.take_left]
  · constructor
    · simp [List.length_append]
    · simp [List.drop_left]

/-- Single-payload round trip: `decrypt_and_decompress_data` inverts
`compress_and_encrypt_data` under the same password, for a 16-byte salt and
12-byte nonce, whenever the external primitives are correct. -/
theorem decrypt_inverts_encrypt (P : AeadPrims) (data : List Nat) (password : String)
    (salt nonce : List Nat) (hs : salt.length = 16) (hn : nonce.length = 12)
    (hz : P.GzipCorrect) (ha : P.AeadCorrect) :
    decryptAndDecompressData P (compressAndEncryptData P data password salt nonce) password
      = .ok data := by
  unfold compressAndEncryptData decryptAndDecompressData
  have hgen : ∀ ct : List Nat,
      (salt ++ nonce ++ ct).take 16 = salt ∧
      ((salt ++ nonce ++ ct).drop 16).take 12 = nonce ∧
      (salt ++ nonce ++ ct).drop 28 = ct := by
    intro ct
    have htake16 : (salt ++ nonce ++ ct).take 16 = salt := by
      rw [List.append_assoc, ← hs, List.take_left]
    have hdrop16 : (salt ++ nonce ++ ct).drop 16 = nonce ++ ct := by
      rw [List.append_assoc, ← hs, List.drop_left]
    have htake12 : ((salt ++ nonce ++ ct).drop 16).take 12 = nonce := by
      rw [hdrop16, ← hn, List.take_left]
    have hdrop28 : (salt ++ nonce ++ ct).drop 28 = ct := by
      have h28 : (28 : Nat) = (salt ++ nonce).length := by
        simp [List.length_append, hs, hn]
      rw [List.append_assoc, ← List.append_assoc, h28, List.drop_left]
    exact ⟨htake16, htake12, hdrop28⟩
  obtain ⟨htake16, htake12, hdrop28⟩ :=
    hgen (P.enc (P.derive password salt) nonce (P.gzipC data))
  have hnotshort :
      ¬ (salt ++ nonce ++ P.enc (P.derive password salt) nonce (P.gzipC data)).length < 28 := by
    simp only [List.length_append, hs, hn]
    omega
  rw [if_neg hnotshort]
  have ha2 := ha (P.derive password salt) nonce (P.gzipC data)
  have hz2 := hz data
  simp only [htake16, htake12, hdrop28, ha2, hz2]

/-!  ## Chunk codec

`split_file` (`src/file_processor.py`, lines 142-188) reads `chunk_size`
bytes at a time until the stream is exhausted, and `merge_chunks`
(lines 191-220) concatenates the chunk contents in list order.
`slice_folder` (`slice_and_assemble.py`, lines 208-323) reads the same way
but additionally emits one empty chunk for a zero-byte file.  -/

/-- The read-loop shared by `split_file` and `slice_folder`: successive
`take chunkSize` slices until the remaining stream is empty.  An empty
stream yields no chunks, since `file.read` returns `b""` at once and the
loop breaks before processing anything. -/
def splitBytes (chunkSize : Nat) (data : List Nat) : List (List Nat) :=
  if hd : data = [] then []
  else if hc : chunkSize = 0 then []
  else
    data.take chunkSize :: splitBytes chunkSize (data.drop chunkSize)
termination_by data.length
decreasing_by
  simp only [List.length_drop]
  have h1 : 0 < data.length := List.length_pos.mpr hd
  omega

/-- `MAX_CHUNK_SIZE_CAP`.  Modelled from the spec: the constant is imported
by `src/file_processor.py` from `src.config`, which is absent from the
sources; the spec pins it "hard-capped below the remote host's
per-attachment limit (e.g. 9.5 MB)", matching `max_chunk_size=9_500_000`
in `setup.py`. -/
def MAX_CHUNK_SIZE_CAP : Nat := 9500000

/-- `split_file` (`src/file_processor.py`, lines 142-188): rejects a
non-positive chunk size, caps an oversized one (with a warning) at
`MAX_CHUNK_SIZE_CAP`, then runs the read loop. -/
def splitFile (chunkSize : Nat) (data : List Nat) : Except PyErr (List (List Nat)) :=
  if chunkSize = 0 then
    .error (.storageBotError "Chunk size must be greater than 0.")
  else
    .ok (splitBytes (min chunkSize MAX_CHUNK_SIZE_CAP) data)

/-- `merge_chunks` (`src/file_processor.py`, lines 191-220): concatenate
chunk contents strictly in list (= ascending index) order. -/
def mergeChunks (chunks : List (List Nat)) : List Nat :=
  chunks.flatten

/-- Chunking as performed per file by `slice_folder`
(`slice_and_assemble.py`, lines 304-316): the read loop, plus the
`file_size == 0` special case that processes one empty chunk at index 0. -/
def sliceFileChunks (chunkSize : Nat) (data : List Nat) : List (List Nat) :=
  if data = [] then [[]]
  else splitBytes chunkSize data

theorem splitBytes_nil (chunkSize : Nat) : splitBytes chunkSize [] = [] := by
  unfold splitBytes
  simp

theorem join_splitBytes (chunkSize : Nat) (hc : chunkSize ≠ 0) (data : List Nat) :
    (splitBytes chunkSize data).flatten = data := by
  by_cases hd : data = []
  · subst hd
    rw [splitBytes_nil]
    rfl
  · rw [splitBytes, dif_neg hd, dif_neg hc]
    have ih : (splitBytes chunkSize (data.drop chunkSize)).flatten = data.drop chunkSize :=
      join_splitBytes chunkSize hc (data.drop chunkSize)
    simp [List.flatten, ih, List.take_append_drop]
termination_by data.length
decreasing_by
  simp only [List.length_drop]
  have h1 : 0 < data.length := List.length_pos.mpr hd
  omega

theorem mergeChunks_sliceFileChunks (chunkSize : Nat) (hc : chunkSize ≠ 0)
    (data : List Nat) : mergeChunks (sliceFileChunks chunkSize data) = data := by
  by_cases hd : data = []
  · subst hd
    rfl
  · rw [sliceFileChunks, if_neg hd]
    exact join_splitBytes chunkSize hc data

/-- Per-chunk processing done by `slice_folder`: each raw chunk at index
`i` is passed through `compress_and_encrypt_data` with its own fresh salt
and nonce (`os.urandom` draws, supplied here as index-dependent streams). -/
def encryptChunksFrom (P : AeadPrims) (password : String)
    (saltF nonceF : Nat → List Nat) : Nat → List (List Nat) → List (List Nat)
  | _, [] => []
  | i, c :: cs =>
    compressAndEncryptData P c password (saltF i) (nonceF i) ::
      encryptChunksFrom P password saltF nonceF (i + 1) cs

/-- The restore side of the per-chunk pipeline, as in the
`encryption_scope == "chunk"` branch of `assemble_from_manifest`
(`slice_and_assemble.py`, lines 480-528): decrypt each wire chunk in
ascending index order and append the plaintexts; the first decryption
failure aborts the file. -/
def decryptAndMerge (P : AeadPrims) (password : String) :
    List (List Nat) → Except PyErr (List Nat)
  | [] => .ok []
  | w :: ws => do
    let c ← decryptAndDecompressData P w password
    let rest ← decryptAndMerge P password ws
    pure (c ++ rest)

theorem decryptAndMerge_encryptChunksFrom (P : AeadPrims) (password : String)
    (saltF nonceF : Nat → List Nat) (hs : ∀ i, (saltF i).length = 16)
    (hn : ∀ i, (nonceF i).length = 12) (hz : P.GzipCorrect) (ha : P.AeadCorrect) :
    ∀ (chunks : List (List Nat)) (i : Nat),
      decryptAndMerge P password (encryptChunksFrom P password saltF nonceF i chunks)
        = .ok chunks.flatten := by
  intro chunks
  induction chunks with
  | nil => intro i; rfl
  | cons c cs ih =>
    intro i
    rw [encryptChunksFrom, decryptAndMerge]
    rw [decrypt_inverts_encrypt P c password (saltF i) (nonceF i) (hs i) (hn i) hz ha]
    rw [ih (i + 1)]
    rfl

/-- C1: for every byte sequence (empty included, and sequences spanning
more than one chunk), the pipeline split → compress → encrypt →
(simulated transport) → decrypt → decompress → merge — that is,
`decrypt_and_decompress_data` applied per chunk to the output of
`compress_and_encrypt_data` under the same password, merged in ascending
index order — reproduces the original byte sequence exactly, whenever the
external gzip and AEAD primitives are correct and each chunk's salt and
nonce have their mandated 16- and 12-byte lengths. -/
theorem c1_round_trip (P : AeadPrims) (data : List Nat) (password : String)
    (saltF nonceF : Nat → List Nat) (chunkSize : Nat) (hc : chunkSize ≠ 0)
    (hs : ∀ i, (saltF i).length = 16) (hn : ∀ i, (nonceF i).length = 12)
    (hz : P.GzipCorrect) (ha : P.AeadCorrect) :
    decryptAndMerge P password
      (encryptChunksFrom P password saltF nonceF 0 (sliceFileChunks chunkSize data))
      = .ok data := by
  rw [decryptAndMerge_encryptChunksFrom P password saltF nonceF hs hn hz ha
    (sliceFileChunks chunkSize data) 0]
  rw [show (sliceFileChunks chunkSize data).flatten
        = mergeChunks (sliceFileChunks chunkSize data) from rfl]
  rw [mergeChunks_sliceFileChunks chunkSize hc data]

/-- Witness for C1: the round trip evaluated at the empty sequence and at
a five-byte sequence split into three chunks of size two. -/
theorem c1_round_trip_witness :
    decryptAndMerge toyPrims "pw"
      (encryptChunksFrom toyPrims "pw" (fun _ => List.replicate 16 0)
        (fun _ => List.replicate 12 0) 0 (sliceFileChunks 2 [1, 2, 3, 4, 5]))
      = .ok [1, 2, 3, 4, 5] ∧
    decryptAndMerge toyPrims "pw"
      (encryptChunksFrom toyPrims "pw" (fun _ => List.replicate 16 0)
        (fun _ => List.replicate 12 0) 0 (sliceFileChunks 2 []))
      = .ok [] := by
  constructor
  · exact c1_round_trip toyPrims [1, 2, 3, 4, 5] "pw" (fun _ => List.replicate 16 0)
      (fun _ => List.replicate 12 0) 2 (by decide) (fun _ => by simp) (fun _ => by simp)
      toyPrims_gzipCorrect toyPrims_aeadCorrect
  · exact c1_round_trip toyPrims [] "pw" (fun _ => List.replicate 16 0)
      (fun _ => List.replicate 12 0) 2 (by decide) (fun _ => by simp) (fun _ => by simp)
      toyPrims_gzipCorrect toyPrims_aeadCorrect

/-!  ## Archive transport: per-chunk upload retry loop

`upload_chunk` (`src/discord_client.py`, lines 199-248) loops
`for attempt in range(1, retries + 1)` around `thread.send`, mapping each
host response:
success returns the chunk metadata; `discord.RateLimited` sleeps the
host-specified `retry_after` and `continue`s; `discord.HTTPException`
raises `UploadError` when `attempt >= retries`, otherwise sleeps `delay`
and doubles it.  Falling off the loop raises `UploadError`.  -/

/-- One host response to a `thread.send` attempt. -/
inductive HostResp where
  | success
  | rateLimited (retryAfter : Nat)
  | httpError
deriving DecidableEq, Repr

/-- Outcome of the upload loop, together with the sleeps performed
(`asyncio.sleep` arguments, in order). -/
inductive UploadOutcome where
  | ok (attempt : Nat)
  | failed
deriving DecidableEq, Repr

/-- The body of `upload_chunk`'s `for attempt in range(1, retries + 1)`
loop.  Each loop iteration performs one `thread.send`, consuming the next
host response; a `continue`, whatever branch issued it, moves on to the
next value of `attempt`. -/
def uploadChunkGo (retries : Nat) :
    Nat → Nat → List HostResp → UploadOutcome × List Nat
  | _, _, [] => (.failed, [])
  | attempt, delay, r :: rest =>
    if attempt > retries then (.failed, [])
    else
      match r with
      | .success => (.ok attempt, [])
      | .rateLimited t =>
        let x := uploadChunkGo retries (attempt + 1) delay rest
        (x.1, t :: x.2)
      | .httpError =>
        if attempt ≥ retries then (.failed, [])
        else
          let x := uploadChunkGo retries (attempt + 1) (2 * delay) rest
          (x.1, delay :: x.2)

/-- `upload_chunk` (`src/discord_client.py`, lines 199-248), as a function
of the sequence of host responses: `delay` starts at 1 second and the
default retry ceiling is 3. -/
def uploadChunk (resps : List HostResp) (retries : Nat := 3) :
    UploadOutcome × List Nat :=
  uploadChunkGo retries 1 1 resps

/-- Number of HTTP-failure responses in a response sequence. -/
def countHttpErrors (resps : List HostResp) : Nat :=
  (resps.filter (fun r => r = HostResp.httpError)).length

/-- C2 (code_bug evaluation): rate-limit responses DO consume the retry
budget.  `continue` inside `for attempt in range(1, retries + 1)` advances
`attempt`, so three rate-limit responses exhaust the loop and the chunk is
reported failed with zero HTTP-failure attempts having occurred — despite
the source's own comment "Don't count rate limits against retry attempts"
and the spec's guarantee.  Each rate-limit wait itself is the
host-specified delay, and pure HTTP failures do back off exponentially
(waits 1 then 2) up to the ceiling of 3 attempts. -/
theorem c2_rate_limit_consumes_retry_budget :
    uploadChunk [.rateLimited 5, .rateLimited 7, .rateLimited 9] 3
      = (.failed, [5, 7, 9]) ∧
    countHttpErrors [.rateLimited 5, .rateLimited 7, .rateLimited 9] = 0 ∧
    uploadChunk [.httpError, .httpError, .success] 3 = (.ok 3, [1, 2]) ∧
    uploadChunk [.httpError, .httpError, .httpError] 3 = (.failed, [1, 2]) := by
  refine ⟨?_, ?_, ?_, ?_⟩ <;> rfl

/-- C7 counterexample: `split_file` on a zero-byte file returns an empty
chunk list, not a list holding one empty chunk.  The read loop breaks on
the first empty read before processing anything, so the claimed single
empty chunk never materializes in `split_file`. -/
theorem c7_split_file_empty_counterexample :
    splitFile 9500000 [] = .ok ([] : List (List Nat)) ∧
    (.ok ([] : List (List Nat)) : Except PyErr (List (List Nat)))
      ≠ .ok ([[]] : List (List Nat)) := by
  constructor
  · rw [splitFile, if_neg (by decide)]
    rw [show splitBytes (min 9500000 MAX_CHUNK_SIZE_CAP) [] = [] from splitBytes_nil _]
  · intro h
    exact absurd (Except.ok.inj h) (by decide)

/-- C7 (amended): only `slice_folder` gives a zero-byte file exactly one
empty chunk (via its explicit `file_size == 0` branch); `split_file` yields
zero chunks for empty input, for every positive chunk size. -/
theorem c7_zero_byte_chunking (chunkSize : Nat) (hc : chunkSize ≠ 0) :
    sliceFileChunks chunkSize [] = [[]] ∧
    (sliceFileChunks chunkSize []).length = 1 ∧
    splitFile chunkSize [] = .ok ([] : List (List Nat)) := by
  refine ⟨rfl, rfl, ?_⟩
  rw [splitFile, if_neg hc]
  rw [show splitBytes (min chunkSize MAX_CHUNK_SIZE_CAP) [] = [] from splitBytes_nil _]

/-- Witness for C7 (amended), at the default 9.5 MB chunk size. -/
theorem c7_zero_byte_chunking_witness :
    sliceFileChunks 9500000 [] = [[]] ∧
    (sliceFileChunks 9500000 []).length = 1 ∧
    splitFile 9500000 [] = .ok ([] : List (List Nat)) :=
  c7_zero_byte_chunking 9500000 (by decide)

/-!  ## Synchronizer

`sync_from_discord` (`src/syncer.py`, lines 63-176) walks the
index-channel history with `oldest_first=True`.  For each message it
parses the batch id (skip when absent), SKIPS the message when
`get_batch(batch_id)` already finds a row, parses the thread id (skip when
absent), collects the thread's attachments (skip when empty), then inserts
one batch row and one chunk row per attachment.  -/

/-- One index-channel message together with the data
`_collect_thread_data` gathers from its thread: the `META:` payload fields
actually read by the sync loop, and the attachments sorted by parsed part
index. -/
structure SyncMessage where
  messageId : Nat
  batchId : Option String
  threadId : Option Nat
  encryptionSalt : String
  totalSize : Nat
  fileCount : Nat
  attachments : List (Nat × Nat)
deriving DecidableEq, Repr

/-- A row of the local `batches` table, restricted to the fields the sync
loop writes. -/
structure BatchRow where
  batchId : String
  chunkCount : Nat
  compressedSize : Nat
  totalSize : Nat
  fileCount : Nat
  encryptionSalt : String
  status : String
  archiveMessageId : Nat
  threadId : Nat
deriving DecidableEq, Repr

/-- A row of the local `chunks` table, restricted to the fields the sync
loop writes. -/
structure ChunkRow where
  batchId : String
  chunkIndex : Nat
  size : Nat
  threadId : Nat
deriving DecidableEq, Repr

/-- Local index state: the `batches` and `chunks` tables. -/
structure Db where
  batches : List BatchRow
  chunks : List ChunkRow
deriving DecidableEq, Repr

/-- `get_batch` (`src/database.py`): look the batch id up in the local
`batches` table. -/
def getBatch (db : Db) (b : String) : Option BatchRow :=
  db.batches.find? (fun row => row.batchId = b)

/-- The batch row `sync_from_discord` builds from one index message and
its thread data: `chunk_count = len(attachments)`,
`compressed_size = sum of attachment sizes` (also used for `total_size`
when the META total is zero), status `complete` iff an encryption salt was
recovered, and the message/thread ids. -/
def rowOfMessage (m : SyncMessage) (b : String) (tid : Nat) : BatchRow :=
  let compressedSize := (m.attachments.map Prod.snd).sum
  { batchId := b
    chunkCount := m.attachments.length
    compressedSize := compressedSize
    totalSize := if m.totalSize = 0 then compressedSize else m.totalSize
    fileCount := m.fileCount
    encryptionSalt := m.encryptionSalt
    status := if m.encryptionSalt ≠ "" then "complete" else "incomplete"
    archiveMessageId := m.messageId
    threadId := tid }

/-- The chunk rows `sync_from_discord` inserts for one message. -/
def chunkRowsOfMessage (m : SyncMessage) (b : String) (tid : Nat) : List ChunkRow :=
  m.attachments.map (fun a => { batchId := b, chunkIndex := a.1, size := a.2, threadId := tid })

/-- One iteration of the `async for message in index_channel.history(...)`
loop of `sync_from_discord`. -/
def syncStep (db : Db) (m : SyncMessage) : Db :=
  match m.batchId with
  | none => db
  | some b =>
    if (getBatch db b).isSome then db
    else
      match m.threadId with
      | none => db
      | some tid =>
        if m.attachments = [] then db
        else
          { batches := db.batches ++ [rowOfMessage m b tid]
            chunks := db.chunks ++ chunkRowsOfMessage m b tid }

/-- `sync_from_discord` over a static remote history, oldest message
first, starting from a local index state (empty after `reset_db`). -/
def syncFromDiscord (history : List SyncMessage) (db : Db) : Db :=
  history.foldl syncStep db

/-- A message is usable for batch id `b` when the sync loop would insert
rows for it: it carries `b`, has a thread id, and its thread has
attachments. -/
def UsableFor (b : String) (m : SyncMessage) : Prop :=
  m.batchId = some b ∧ m.threadId.isSome ∧ m.attachments ≠ []

instance (b : String) (m : SyncMessage) : Decidable (UsableFor b m) := by
  unfold UsableFor
  infer_instance

/-- The empty local index (the state after `reset_db` unlinks the
database file and `init_database` recreates the schema). -/
def emptyDb : Db := { batches := [], chunks := [] }

/-- The batch rows recorded in the local index for id `b`. -/
def batchRowsFor (db : Db) (b : String) : List BatchRow :=
  db.batches.filter (fun row => row.batchId = b)

/-- The chunk rows recorded in the local index for id `b`. -/
def chunkRowsFor (db : Db) (b : String) : List ChunkRow :=
  db.chunks.filter (fun row => row.batchId = b)

theorem batchRowsFor_nil_of_getBatch_none (db : Db) (b : String)
    (h : getBatch db b = none) : batchRowsFor db b = [] := by
  unfold getBatch at h
  unfold batchRowsFor
  rw [List.filter_eq_nil_iff]
  intro a ha
  exact List.find?_eq_none.mp h a ha

theorem chunkRowsOfMessage_filter_ne (m : SyncMessage) (b2 : String) (tid : Nat)
    (b : String) (hne : b2 ≠ b) :
    (chunkRowsOfMessage m b2 tid).filter (fun row => row.batchId = b) = [] := by
  rw [List.filter_eq_nil_iff]
  intro a ha
  obtain ⟨x, _, hxa⟩ := List.mem_map.mp ha
  subst hxa
  simp [hne]

theorem chunkRowsOfMessage_filter_self (m : SyncMessage) (b : String) (tid : Nat) :
    (chunkRowsOfMessage m b tid).filter (fun row => row.batchId = b)
      = chunkRowsOfMessage m b tid := by
  rw [List.filter_eq_self]
  intro a ha
  obtain ⟨x, _, hxa⟩ := List.mem_map.mp ha
  subst hxa
  simp

/-- When the sync loop inserts for message `m`, the new state is exactly
the old one with `m`'s batch row and chunk rows appended. -/
theorem syncStep_insert (db : Db) (m : SyncMessage) (b : String) (tid : Nat)
    (hm : m.batchId = some b) (htid : m.threadId = some tid)
    (hatt : m.attachments ≠ []) (h : getBatch db b = none) :
    syncStep db m
      = { batches := db.batches ++ [rowOfMessage m b tid]
          chunks := db.chunks ++ chunkRowsOfMessage m b tid } := by
  unfold syncStep
  rw [hm]
  have hnone : (getBatch db b).isSome = false := by
    rw [h]
    rfl
  simp only [hnone, Bool.false_eq_true, if_false, htid]
  rw [if_neg hatt]

/-- `syncStep` either leaves the index unchanged (no batch id, id already
recorded, no thread id, or no attachments) or appends exactly one batch
row and the message's chunk rows. -/
theorem syncStep_eq (db : Db) (m : SyncMessage) :
    syncStep db m = db ∨
    ∃ b2 tid, m.batchId = some b2 ∧ getBatch db b2 = none ∧
      m.threadId = some tid ∧ m.attachments ≠ [] ∧
      syncStep db m
        = { batches := db.batches ++ [rowOfMessage m b2 tid]
            chunks := db.chunks ++ chunkRowsOfMessage m b2 tid } := by
  cases hb : m.batchId with
  | none =>
    left
    unfold syncStep
    rw [hb]
  | some b2 =>
    cases hfound : getBatch db b2 with
    | some r0 =>
      left
      unfold syncStep
      rw [hb]
      simp [hfound]
    | none =>
      cases ht : m.threadId with
      | none =>
        left
        unfold syncStep
        rw [hb]
        simp [hfound, ht]
      | some tid =>
        by_cases hatt : m.attachments = []
        · left
          unfold syncStep
          rw [hb]
          simp [hfound, ht, hatt]
        · right
          refine ⟨b2, tid, rfl, hfound, rfl, hatt, ?_⟩
          exact syncStep_insert db m b2 tid hb ht hatt hfound

theorem syncStep_state_preserved (db : Db) (m : SyncMessage) (b : String)
    (r : BatchRow) (h : getBatch db b = some r) :
    getBatch (syncStep db m) b = some r ∧
    batchRowsFor (syncStep db m) b = batchRowsFor db b ∧
    chunkRowsFor (syncStep db m) b = chunkRowsFor db b := by
  rcases syncStep_eq db m with hskip | ⟨b2, tid, _, hnone, _, _, hins⟩
  · rw [hskip]
    exact ⟨h, rfl, rfl⟩
  · have hne : b2 ≠ b := by
      intro hEq
      subst hEq
      rw [h] at hnone
      cases hnone
    rw [hins]
    refine ⟨?_, ?_, ?_⟩
    · unfold getBatch at h ⊢
      rw [List.find?_append, h]
      rfl
    · unfold batchRowsFor
      rw [List.filter_append]
      simp [rowOfMessage, hne]
    · unfold chunkRowsFor
      rw [List.filter_append, chunkRowsOfMessage_filter_ne m b2 tid b hne]
      simp

theorem syncStep_state_not_usable (db : Db) (m : SyncMessage) (b : String)
    (h : getBatch db b = none) (hm : ¬ UsableFor b m) :
    getBatch (syncStep db m) b = none ∧
    batchRowsFor (syncStep db m) b = batchRowsFor db b ∧
    chunkRowsFor (syncStep db m) b = chunkRowsFor db b := by
  rcases syncStep_eq db m with hskip | ⟨b2, tid, hb, _, ht, hatt, hins⟩
  · rw [hskip]
    exact ⟨h, rfl, rfl⟩
  · have hne : b2 ≠ b := by
      intro hEq
      subst hEq
      exact hm ⟨hb, by simp [ht], hatt⟩
    rw [hins]
    refine ⟨?_, ?_, ?_⟩
    · unfold getBatch at h ⊢
      rw [List.find?_append, h]
      simp [rowOfMessage, hne]
    · unfold batchRowsFor
      rw [List.filter_append]
      simp [rowOfMessage, hne]
    · unfold chunkRowsFor
      rw [List.filter_append, chunkRowsOfMessage_filter_ne m b2 tid b hne]
      simp

theorem sync_state_preserved (post : List SyncMessage) (db : Db) (b : String)
    (r : BatchRow) (h : getBatch db b = some r) :
    getBatch (syncFromDiscord post db) b = some r ∧
    batchRowsFor (syncFromDiscord post db) b = batchRowsFor db b ∧
    chunkRowsFor (syncFromDiscord post db) b = chunkRowsFor db b := by
  induction post generalizing db with
  | nil => exact ⟨h, rfl, rfl⟩
  | cons m rest ih =>
    obtain ⟨h1, h2, h3⟩ := syncStep_state_preserved db m b r h
    obtain ⟨g1, g2, g3⟩ := ih (syncStep db m) h1
    have hstep : syncFromDiscord (m :: rest) db = syncFromDiscord rest (syncStep db m) := rfl
    rw [hstep]
    exact ⟨g1, by rw [g2, h2], by rw [g3, h3]⟩

theorem sync_state_not_usable (pre : List SyncMessage) (db : Db) (b : String)
    (h : getBatch db b = none) (hpre : ∀ m ∈ pre, ¬ UsableFor b m) :
    getBatch (syncFromDiscord pre db) b = none ∧
    batchRowsFor (syncFromDiscord pre db) b = batchRowsFor db b ∧
    chunkRowsFor (syncFromDiscord pre db) b = chunkRowsFor db b := by
  induction pre generalizing db with
  | nil => exact ⟨h, rfl, rfl⟩
  | cons m rest ih =>
    obtain ⟨h1, h2, h3⟩ := syncStep_state_not_usable db m b h (hpre m (by simp))
    obtain ⟨g1, g2, g3⟩ := ih (syncStep db m) h1 (fun m2 hm2 => hpre m2 (by simp [hm2]))
    have hstep : syncFromDiscord (m :: rest) db = syncFromDiscord rest (syncStep db m) := rfl
    rw [hstep]
    exact ⟨g1, by rw [g2, h2], by rw [g3, h3]⟩

/-- The concrete duplicated index messages used to refute C3: two
messages carrying batch id `B`, the older one describing one chunk, the
newer one two chunks. -/
def syncMsgOld : SyncMessage :=
  { messageId := 1, batchId := some "B", threadId := some 10,
    encryptionSalt := "s", totalSize := 0, fileCount := 1,
    attachments := [(0, 4)] }

def syncMsgNew : SyncMessage :=
  { messageId := 2, batchId := some "B", threadId := some 10,
    encryptionSalt := "s", totalSize := 0, fileCount := 1,
    attachments := [(0, 4), (1, 4)] }

/-- C3 counterexample: with two remote messages carrying the same batch
id, walking history oldest-first records the rows of the chronologically
FIRST message — `if get_batch(batch_id): continue` skips the later
duplicate — so the recorded row differs from the one the claimed
last-write-wins rule would produce. -/
theorem c3_counterexample :
    getBatch (syncFromDiscord [syncMsgOld, syncMsgNew] emptyDb) "B"
      = some (rowOfMessage syncMsgOld "B" 10) ∧
    rowOfMessage syncMsgOld "B" 10 ≠ rowOfMessage syncMsgNew "B" 10 := by
  constructor
  · rfl
  · intro h
    have := congrArg BatchRow.chunkCount h
    simp [rowOfMessage, syncMsgOld, syncMsgNew] at this

/-- C3 (amended): duplicate batch ids are resolved FIRST-write-wins in
chronological remote order: for every history, the batch rows and chunk
rows recorded in the local index for id `b` are EXACTLY those derived
from the chronologically first message usable for `b` (carrying `b`, a
thread id, and a nonempty attachment list) — one batch row and that
message's chunk rows — and every later message with the same id is
skipped, contributing no row, regardless of its content. -/
theorem c3_first_write_wins (pre post : List SyncMessage) (m : SyncMessage)
    (b : String) (tid : Nat) (hm : m.batchId = some b)
    (htid : m.threadId = some tid) (hatt : m.attachments ≠ [])
    (hpre : ∀ m2 ∈ pre, ¬ UsableFor b m2) :
    getBatch (syncFromDiscord (pre ++ m :: post) emptyDb) b
      = some (rowOfMessage m b tid) ∧
    batchRowsFor (syncFromDiscord (pre ++ m :: post) emptyDb) b
      = [rowOfMessage m b tid] ∧
    chunkRowsFor (syncFromDiscord (pre ++ m :: post) emptyDb) b
      = chunkRowsOfMessage m b tid := by
  have h0 : getBatch emptyDb b = none := rfl
  obtain ⟨h1, h2, h3⟩ := sync_state_not_usable pre emptyDb b h0 hpre
  have hbpre : batchRowsFor (syncFromDiscord pre emptyDb) b = [] := by
    rw [h2]
    rfl
  have hcpre : chunkRowsFor (syncFromDiscord pre emptyDb) b = [] := by
    rw [h3]
    rfl
  have hins := syncStep_insert (syncFromDiscord pre emptyDb) m b tid hm htid hatt h1
  have hg : getBatch (syncStep (syncFromDiscord pre emptyDb) m) b
      = some (rowOfMessage m b tid) := by
    rw [hins]
    unfold getBatch at h1 ⊢
    rw [List.find?_append, h1]
    simp [rowOfMessage]
  have hbr : batchRowsFor (syncStep (syncFromDiscord pre emptyDb) m) b
      = [rowOfMessage m b tid] := by
    rw [hins]
    unfold batchRowsFor at hbpre ⊢
    rw [List.filter_append, hbpre]
    simp [rowOfMessage]
  have hcr : chunkRowsFor (syncStep (syncFromDiscord pre emptyDb) m) b
      = chunkRowsOfMessage m b tid := by
    rw [hins]
    unfold chunkRowsFor at hcpre ⊢
    rw [List.filter_append, hcpre, List.nil_append]
    exact chunkRowsOfMessage_filter_self m b tid
  have hfold : syncFromDiscord (pre ++ m :: post) emptyDb
      = syncFromDiscord post (syncStep (syncFromDiscord pre emptyDb) m) := by
    unfold syncFromDiscord
    rw [List.foldl_append]
    rfl
  obtain ⟨g1, g2, g3⟩ := sync_state_preserved post _ b _ hg
  rw [hfold]
  exact ⟨g1, by rw [g2, hbr], by rw [g3, hcr]⟩

/-- Witness for C3 (amended): the first usable message for `B` follows an
unusable one (no thread id) and precedes a duplicate; its batch row and
chunk rows are exactly what the index records for `B`. -/
theorem c3_first_write_wins_witness :
    getBatch (syncFromDiscord
      ([{ syncMsgOld with threadId := none }] ++ syncMsgOld :: [syncMsgNew])
      emptyDb) "B" = some (rowOfMessage syncMsgOld "B" 10) ∧
    batchRowsFor (syncFromDiscord
      ([{ syncMsgOld with threadId := none }] ++ syncMsgOld :: [syncMsgNew])
      emptyDb) "B" = [rowOfMessage syncMsgOld "B" 10] ∧
    chunkRowsFor (syncFromDiscord
      ([{ syncMsgOld with threadId := none }] ++ syncMsgOld :: [syncMsgNew])
      emptyDb) "B" = chunkRowsOfMessage syncMsgOld "B" 10 :=
  c3_first_write_wins [{ syncMsgOld with threadId := none }] [syncMsgNew]
    syncMsgOld "B" 10 rfl rfl (by decide)
    (by
      intro m2 hm2
      simp only [List.mem_singleton] at hm2
      subst hm2
      intro hu
      exact absurd hu.2.1 (by decide))

/-!  ## Final batch status

Two upload pipelines record a final status.

The bot-cog path (`src/bot/cogs/upload.py`, lines 180-183) keeps
per-chunk `uploaded_files` / `failed_files` lists and computes
`status = "partial" if uploaded_files else "failed"` when `failed_files`
is nonempty, else `"success"`.

The batch path (`src/uploader.py` `upload`/`on_ready`, lines 266-292)
calls `upload_chunks_concurrent` (`src/discord_client.py`, lines
251-288), which runs `asyncio.gather` WITHOUT `return_exceptions`: the
first `UploadError` propagates, the `except` block records status
`"failed"`, and only an all-success run reaches
`update_batch_status(batch_id, "complete")`.  -/

/-- The status expression of `src/bot/cogs/upload.py`, lines 180-183. -/
def cogFinalStatus (uploadedFiles failedFiles : List String) : String :=
  if failedFiles ≠ [] then
    if uploadedFiles ≠ [] then "partial" else "failed"
  else "success"

/-- Per-chunk outcome bookkeeping of the bot-cog upload loop: each chunk
name lands in `uploaded_files` when its send succeeded, in `failed_files`
otherwise. -/
def cogOutcomeLists (names : List String) (ok : String → Bool) :
    List String × List String :=
  (names.filter ok, names.filter (fun n => ¬ ok n))

/-- Final recorded status of `uploader.upload`: `"complete"` when every
chunk upload succeeded, `"failed"` as soon as any chunk raised, because
`asyncio.gather` propagates the first exception into the `except` handler
regardless of how many other chunks succeeded. -/
def uploaderFinalStatus (outcomes : List Bool) : String :=
  if outcomes.all (fun o => o) then "complete" else "failed"

/-- The status rule asserted by the claim, written from its words for
comparison: success iff zero failed, partial iff mixed, failed iff none
succeeded. -/
def claimedFinalStatus (outcomes : List Bool) : String :=
  if outcomes.all (fun o => o) then "success"
  else if outcomes.any (fun o => o) then "partial"
  else "failed"

/-- C4 counterexample: in the batch uploader path (the claim's cited
source), one successful and one failed chunk record final status
`"failed"`, where the claim mandates `"partial"` — a batch with a
succeeded chunk is still marked failed. -/
theorem c4_counterexample :
    uploaderFinalStatus [true, false] = "failed" ∧
    claimedFinalStatus [true, false] = "partial" ∧
    ("failed" : String) ≠ "partial" := by
  refine ⟨rfl, rfl, ?_⟩
  decide

/-- C4 (amended): the success/partial/failed trichotomy holds exactly in
the bot-cog upload path — `"success"` iff zero chunks failed, `"partial"`
iff at least one succeeded and at least one failed, `"failed"` iff none
succeeded and some failed — while the batch uploader path records
`"complete"` iff zero chunks failed and `"failed"` otherwise, never
`"partial"`. -/
theorem c4_final_status (names : List String) (ok : String → Bool)
    (outcomes : List Bool) :
    (cogFinalStatus (cogOutcomeLists names ok).1 (cogOutcomeLists names ok).2
        = "success" ↔ (cogOutcomeLists names ok).2 = []) ∧
    (cogFinalStatus (cogOutcomeLists names ok).1 (cogOutcomeLists names ok).2
        = "partial" ↔
      ((cogOutcomeLists names ok).2 ≠ [] ∧ (cogOutcomeLists names ok).1 ≠ [])) ∧
    (cogFinalStatus (cogOutcomeLists names ok).1 (cogOutcomeLists names ok).2
        = "failed" ↔
      ((cogOutcomeLists names ok).2 ≠ [] ∧ (cogOutcomeLists names ok).1 = [])) ∧
    (uploaderFinalStatus outcomes = "complete" ↔ outcomes.all (fun o => o) = true) ∧
    uploaderFinalStatus outcomes ≠ "partial" := by
  set u := (cogOutcomeLists names ok).1
  set f := (cogOutcomeLists names ok).2
  refine ⟨?_, ?_, ?_, ?_, ?_⟩
  · unfold cogFinalStatus
    by_cases hf : f = [] <;> by_cases hu : u = [] <;> simp [hf, hu]
  · unfold cogFinalStatus
    by_cases hf : f = [] <;> by_cases hu : u = [] <;> simp [hf, hu]
  · unfold cogFinalStatus
    by_cases hf : f = [] <;> by_cases hu : u = [] <;> simp [hf, hu]
  · unfold uploaderFinalStatus
    by_cases ho : outcomes.all (fun o => o) = true <;> simp [ho]
  · unfold uploaderFinalStatus
    by_cases ho : outcomes.all (fun o => o) = true <;> simp [ho]

/-!  ## Download

`download_chunk` (`src/discord_client.py`, lines 291-311) opens the
attachment URL and writes `output_path` unconditionally — there is no
existence check.  `download_chunks_concurrent` (lines 314-349) fetches
every listed chunk into `output_dir / "chunk_{index}.bin"` and returns the
paths sorted by index.  The only present-file skip logic in the repository
is in the bot helper `download_from_thread` (`src/bot/utils.py`, lines
208-253), which counts a file already at the destination as skipped and
does not re-fetch it.  -/

/-- Destination state and bookkeeping of one concurrent chunk download
run: the set of files present (as a list of names), the paths written by
this run, and the number of chunks reported skipped. -/
structure DlRun where
  fs : List String
  written : List String
  skipped : Nat
deriving DecidableEq, Repr

/-- Name of the file `download_chunks_concurrent` writes for chunk
index `i`: `chunk_{i}.bin` in the output directory. -/
def chunkFileName (i : Nat) : String :=
  "chunk_" ++ toString i ++ ".bin"

/-- `download_chunks_concurrent`: every chunk in the metadata list is
fetched by `download_chunk` and written, present or not; nothing is ever
counted skipped. -/
def downloadChunksConcurrent (chunkIndices : List Nat) (fs0 : List String) : DlRun :=
  chunkIndices.foldl
    (fun acc i =>
      { fs := acc.fs ++ [chunkFileName i]
        written := acc.written ++ [chunkFileName i]
        skipped := acc.skipped })
    { fs := fs0, written := [], skipped := 0 }

/-- C5 counterexample: re-running the chunk download of a one-chunk batch
to the same destination re-writes the chunk file and reports zero skips,
because `download_chunk`/`download_chunks_concurrent` never test for an
existing file — the second run performs one redundant write where the
claim demands zero, and reports 0 skipped where the claim demands 1. -/
theorem c5_counterexample :
    (downloadChunksConcurrent [0]
        (downloadChunksConcurrent [0] []).fs).written = [chunkFileName 0] ∧
    (downloadChunksConcurrent [0]
        (downloadChunksConcurrent [0] []).fs).written ≠ [] ∧
    (downloadChunksConcurrent [0]
        (downloadChunksConcurrent [0] []).fs).skipped = 0 := by
  refine ⟨rfl, ?_, rfl⟩
  decide

/-- Counters and destination state of `download_from_thread`
(`src/bot/utils.py`, lines 208-253). -/
structure ThreadDl where
  success : Nat
  failed : Nat
  skipped : Nat
  fs : List String
deriving DecidableEq, Repr

/-- One attachment iteration of `download_from_thread`: a file already at
the destination counts as skipped and is not re-fetched; otherwise the
save is attempted (up to three tries, summarized by the `saveOk` oracle)
and counted as success or failure. -/
def threadDlStep (saveOk : String → Bool) (acc : ThreadDl) (name : String) : ThreadDl :=
  if name ∈ acc.fs then { acc with skipped := acc.skipped + 1 }
  else if saveOk name then
    { acc with success := acc.success + 1, fs := acc.fs ++ [name] }
  else { acc with failed := acc.failed + 1 }

/-- `download_from_thread`: fold the per-attachment step over the
thread's attachment names (oldest message first). -/
def downloadFromThread (saveOk : String → Bool) (atts : List String)
    (fs0 : List String) : ThreadDl :=
  atts.foldl (threadDlStep saveOk)
    { success := 0, failed := 0, skipped := 0, fs := fs0 }

theorem threadDl_foldl_fs_mono (saveOk : String → Bool) (atts : List String)
    (acc : ThreadDl) (x : String) (hx : x ∈ acc.fs) :
    x ∈ (atts.foldl (threadDlStep saveOk) acc).fs := by
  induction atts generalizing acc with
  | nil => exact hx
  | cons a rest ih =>
    refine ih (threadDlStep saveOk acc a) ?_
    unfold threadDlStep
    by_cases hmem : a ∈ acc.fs
    · simp [hmem, hx]
    · by_cases hok : saveOk a = true <;> simp [hmem, hok, hx]

theorem threadDl_foldl_failed_mono (saveOk : String → Bool) (atts : List String)
    (acc : ThreadDl) : acc.failed ≤ (atts.foldl (threadDlStep saveOk) acc).failed := by
  induction atts generalizing acc with
  | nil => exact Nat.le_refl _
  | cons a rest ih =>
    refine Nat.le_trans ?_ (ih (threadDlStep saveOk acc a))
    unfold threadDlStep
    by_cases hmem : a ∈ acc.fs
    · simp [hmem]
    · by_cases hok : saveOk a = true <;> simp [hmem, hok]

theorem threadDl_no_failure_saved (saveOk : String → Bool) (atts : List String)
    (acc : ThreadDl)
    (hnf : (atts.foldl (threadDlStep saveOk) acc).failed = acc.failed) :
    ∀ a ∈ atts, a ∈ (atts.foldl (threadDlStep saveOk) acc).fs := by
  induction atts generalizing acc with
  | nil => intro a ha; cases ha
  | cons a rest ih =>
    intro x hx
    rw [List.foldl_cons] at hnf ⊢
    have hstepf : (threadDlStep saveOk acc a).failed = acc.failed := by
      have h1 := threadDl_foldl_failed_mono saveOk rest (threadDlStep saveOk acc a)
      unfold threadDlStep
      by_cases hmem : a ∈ acc.fs
      · simp [hmem]
      · by_cases hok : saveOk a = true
        · simp [hmem, hok]
        · exfalso
          unfold threadDlStep at h1 hnf
          simp [hmem, hok] at h1 hnf
          omega
    rcases List.mem_cons.mp hx with hax | hrest
    · subst hax
      refine threadDl_foldl_fs_mono saveOk rest _ x ?_
      unfold threadDlStep
      by_cases hmem : x ∈ acc.fs
      · simp [hmem]
      · by_cases hok : saveOk x = true
        · simp [hmem, hok]
        · exfalso
          unfold threadDlStep at hstepf
          simp [hmem, hok] at hstepf
    · exact ih (threadDlStep saveOk acc a) (by rw [hnf, hstepf]) x hrest

theorem threadDl_all_present_skips (saveOk : String → Bool) (atts : List String)
    (s0 f0 k0 : Nat) (fs : List String) (hall : ∀ a ∈ atts, a ∈ fs) :
    atts.foldl (threadDlStep saveOk) { success := s0, failed := f0, skipped := k0, fs := fs }
      = { success := s0, failed := f0, skipped := k0 + atts.length, fs := fs } := by
  induction atts generalizing k0 with
  | nil => simp
  | cons a rest ih =>
    rw [List.foldl_cons]
    have hstep : threadDlStep saveOk
        { success := s0, failed := f0, skipped := k0, fs := fs } a
        = { success := s0, failed := f0, skipped := k0 + 1, fs := fs } := by
      unfold threadDlStep
      simp [hall a (by simp)]
    rw [hstep, ih (k0 + 1) (fun x hx => hall x (by simp [hx]))]
    simp [List.length_cons]
    omega

/-- C5 (amended): the only idempotent-skip download path is the bot
helper `download_from_thread`: after a first run with no failed saves,
a second run to the same destination performs zero new writes, zero new
successes, and reports every attachment as skipped; the chunk-level
`download_chunk`/`download_chunks_concurrent` path named by the claim
re-fetches every chunk unconditionally. -/
theorem c5_thread_download_idempotent (saveOk saveOk2 : String → Bool)
    (atts : List String) (fs0 : List String)
    (hnf : (downloadFromThread saveOk atts fs0).failed = 0) :
    (downloadFromThread saveOk2 atts (downloadFromThread saveOk atts fs0).fs)
      = { success := 0, failed := 0, skipped := atts.length,
          fs := (downloadFromThread saveOk atts fs0).fs } ∧
    (downloadChunksConcurrent [0]
        (downloadChunksConcurrent [0] []).fs).written.length = 1 := by
  constructor
  · have hall : ∀ a ∈ atts, a ∈ (downloadFromThread saveOk atts fs0).fs :=
      threadDl_no_failure_saved saveOk atts _ (by simpa using hnf)
    unfold downloadFromThread
    have := threadDl_all_present_skips saveOk2 atts 0 0 0
      (downloadFromThread saveOk atts fs0).fs hall
    simpa using this
  · rfl

/-- Witness for C5 (amended): two attachments, all saves succeeding on
the first run; the second run skips both. -/
theorem c5_thread_download_idempotent_witness :
    (downloadFromThread (fun _ => true) ["a.bin", "b.bin"]
        (downloadFromThread (fun _ => true) ["a.bin", "b.bin"] []).fs)
      = { success := 0, failed := 0, skipped := 2,
          fs := (downloadFromThread (fun _ => true) ["a.bin", "b.bin"] []).fs } ∧
    (downloadChunksConcurrent [0]
        (downloadChunksConcurrent [0] []).fs).written.length = 1 :=
  c5_thread_download_idempotent (fun _ => true) (fun _ => true)
    ["a.bin", "b.bin"] [] (by decide)

/-!  ## Resume

`resume_upload` (`src/uploader.py`, lines 307-403): load the batch
(error when absent, early return when already complete), require the temp
directory with the `.part{i}` chunk files, compute
`remaining = indexed temp chunks whose index is not among the recorded
chunk rows`, finish immediately when nothing remains, then look the
recorded thread up with `get_channel`/`fetch_channel` — raising
`StorageBotError("Thread not found for resume.")` when it is not a
thread, with the `except` handler then recording status `"failed"` — and
otherwise upload exactly `remaining` and append one chunk row per
uploaded index.  -/

/-- The persisted and on-disk state `resume_upload` reads: the batch row
(status, recorded `chunk_count` N, thread id), the recorded chunk-row
indices, whether the `temp_{batch_id}` directory with parts `0..N-1`
still exists, and whether the recorded thread still resolves to a
Discord thread. -/
structure ResumeState where
  batchExists : Bool
  status : String
  chunkCount : Nat
  uploadedRows : List Nat
  tempExists : Bool
  threadOk : Bool
deriving DecidableEq, Repr

/-- Result of a resume run: the outcome, the set of chunk indices
actually sent to `upload_chunks_concurrent`, the chunk-row indices
recorded afterwards, and the final batch status and chunk count. -/
structure ResumeResult where
  outcome : Except PyErr String
  attempted : List Nat
  finalRows : List Nat
  finalStatus : String
  finalChunkCount : Nat
deriving Repr

/-- The `remaining` computation of `resume_upload`: the temp directory
holds parts `0..N-1` sorted by index, and indices already present in the
recorded chunk rows are dropped. -/
def resumeRemaining (s : ResumeState) : List Nat :=
  (List.range s.chunkCount).filter (fun i => ¬ i ∈ s.uploadedRows)

/-- `resume_upload`, on the success path of `upload_chunks_concurrent`
(per-chunk send outcomes are covered by C2/C4; here every attempted send
succeeds, matching the claim's scenario). -/
def resumeUpload (s : ResumeState) (batchId : String) : ResumeResult :=
  if ¬ s.batchExists then
    { outcome := .error (.storageBotError "Batch not found.")
      attempted := [], finalRows := s.uploadedRows
      finalStatus := s.status, finalChunkCount := s.chunkCount }
  else if s.status = "complete" then
    { outcome := .ok batchId
      attempted := [], finalRows := s.uploadedRows
      finalStatus := s.status, finalChunkCount := s.chunkCount }
  else if ¬ s.tempExists then
    { outcome := .error (.storageBotError "Temporary data not found for resume.")
      attempted := [], finalRows := s.uploadedRows
      finalStatus := s.status, finalChunkCount := s.chunkCount }
  else if resumeRemaining s = [] then
    { outcome := .ok batchId
      attempted := [], finalRows := s.uploadedRows
      finalStatus := "complete", finalChunkCount := s.chunkCount }
  else if ¬ s.threadOk then
    { outcome := .error (.storageBotError "Thread not found for resume.")
      attempted := [], finalRows := s.uploadedRows
      finalStatus := "failed", finalChunkCount := s.chunkCount }
  else
    { outcome := .ok batchId
      attempted := resumeRemaining s
      finalRows := s.uploadedRows ++ resumeRemaining s
      finalStatus := "complete", finalChunkCount := s.chunkCount }

/-- The interrupted five-chunk batch whose recorded thread no longer
resolves, used to refute the claim's "creating one if absent" clause. -/
def resumeNoThreadState : ResumeState :=
  { batchExists := true, status := "uploading", chunkCount := 5,
    uploadedRows := [0, 1, 2], tempExists := true, threadOk := false }

/-- C6 counterexample: for an interrupted batch (chunks 0..2 recorded,
3..4 missing) whose remote thread is absent, `resume_upload` raises
`StorageBotError("Thread not found for resume.")` and uploads nothing —
it does not create a thread and does not upload the missing set
`[3, 4]` as the claim states. -/
theorem c6_counterexample :
    (resumeUpload resumeNoThreadState "B").outcome
      = .error (.storageBotError "Thread not found for resume.") ∧
    (resumeUpload resumeNoThreadState "B").attempted = [] ∧
    resumeRemaining resumeNoThreadState = [3, 4] ∧
    ([] : List Nat) ≠ [3, 4] := by
  refine ⟨rfl, rfl, by decide, by decide⟩

/-- C6 (amended): for an interrupted batch of N chunks whose recorded
thread still resolves, `resume_upload` uploads exactly the chunk indices
absent from the recorded chunk rows — no recorded chunk is re-sent, no
missing chunk is omitted — and afterwards the chunk rows cover every
index `0..N-1` while the recorded `chunk_count` stays N; when the thread
is absent, it fails with `StorageBotError` instead of creating one. -/
theorem c6_resume_uploads_missing_set (s : ResumeState) (batchId : String)
    (hb : s.batchExists = true) (hst : s.status ≠ "complete")
    (ht : s.tempExists = true) (hth : s.threadOk = true) :
    (∀ i, i ∈ (resumeUpload s batchId).attempted ↔
      (i < s.chunkCount ∧ ¬ i ∈ s.uploadedRows)) ∧
    (∀ i, i < s.chunkCount → i ∈ s.uploadedRows ∨
      i ∈ (resumeUpload s batchId).attempted) ∧
    (∀ i, i < s.chunkCount → i ∈ (resumeUpload s batchId).finalRows) ∧
    (resumeUpload s batchId).finalChunkCount = s.chunkCount ∧
    (resumeUpload s batchId).outcome = .ok batchId := by
  have hmem : ∀ i, i ∈ resumeRemaining s ↔ (i < s.chunkCount ∧ ¬ i ∈ s.uploadedRows) := by
    intro i
    unfold resumeRemaining
    simp [List.mem_filter, List.mem_range]
  by_cases hrem : resumeRemaining s = []
  · have hres : resumeUpload s batchId =
        { outcome := .ok batchId, attempted := [], finalRows := s.uploadedRows,
          finalStatus := "complete", finalChunkCount := s.chunkCount } := by
      unfold resumeUpload
      simp [hb, hst, ht, hrem]
    rw [hres]
    refine ⟨?_, ?_, ?_, rfl, rfl⟩
    · intro i
      simp only [List.not_mem_nil, false_iff]
      intro hi
      have := (hmem i).mpr hi
      rw [hrem] at this
      exact List.not_mem_nil i this
    · intro i hi
      by_cases hrow : i ∈ s.uploadedRows
      · exact Or.inl hrow
      · exfalso
        have := (hmem i).mpr ⟨hi, hrow⟩
        rw [hrem] at this
        exact List.not_mem_nil i this
    · intro i hi
      by_cases hrow : i ∈ s.uploadedRows
      · exact hrow
      · exfalso
        have := (hmem i).mpr ⟨hi, hrow⟩
        rw [hrem] at this
        exact List.not_mem_nil i this
  · have hres : resumeUpload s batchId =
        { outcome := .ok batchId, attempted := resumeRemaining s,
          finalRows := s.uploadedRows ++ resumeRemaining s,
          finalStatus := "complete", finalChunkCount := s.chunkCount } := by
      unfold resumeUpload
      simp [hb, hst, ht, hth, hrem]
    rw [hres]
    refine ⟨hmem, ?_, ?_, rfl, rfl⟩
    · intro i hi
      by_cases hrow : i ∈ s.uploadedRows
      · exact Or.inl hrow
      · exact Or.inr ((hmem i).mpr ⟨hi, hrow⟩)
    · intro i hi
      by_cases hrow : i ∈ s.uploadedRows
      · exact List.mem_append.mpr (Or.inl hrow)
      · exact List.mem_append.mpr (Or.inr ((hmem i).mpr ⟨hi, hrow⟩))

/-- Witness for C6 (amended): chunks 0..2 recorded and 3..4 missing out
of N = 5, thread present: exactly `[3, 4]` is attempted, the rows cover
`0..4`, and `chunk_count` stays 5. -/
theorem c6_resume_uploads_missing_set_witness :
    (∀ i, i ∈ (resumeUpload { resumeNoThreadState with threadOk := true } "B").attempted ↔
      (i < 5 ∧ ¬ i ∈ [0, 1, 2])) ∧
    (∀ i, i < 5 → i ∈ [0, 1, 2] ∨
      i ∈ (resumeUpload { resumeNoThreadState with threadOk := true } "B").attempted) ∧
    (∀ i, i < 5 → i ∈ (resumeUpload { resumeNoThreadState with threadOk := true } "B").finalRows) ∧
    (resumeUpload { resumeNoThreadState with threadOk := true } "B").finalChunkCount = 5 ∧
    (resumeUpload { resumeNoThreadState with threadOk := true } "B").outcome = .ok "B" :=
  c6_resume_uploads_missing_set { resumeNoThreadState with threadOk := true } "B"
    rfl (by decide) rfl rfl

/-!  ## Decryption failure causes

`decrypt_data` (`src/core/crypto.py`, lines 48-77) raises
`ValueError("Data too short to be encrypted.")` for truncated input and
the single `ValueError("Decryption failed. Wrong password or corrupted
data.")` for EVERY AEAD authentication failure, whether the password was
wrong or the ciphertext tampered — the AEAD tag check cannot tell the
two apart, and the source deliberately uses one message for both.
`decrypt_chunk` (`src/encryption.py`, lines 75-91) maps Fernet's
`InvalidToken` to `EncryptionError("Encrypted chunk integrity check
failed.")`.  -/

/-- A payload of `encrypt_data` under password "aa" (toy key `[2]`):
16-byte salt, 12-byte nonce, plaintext `[5]`. -/
def wirePayload : List Nat :=
  encryptData toyPrims [5] "aa" (List.replicate 16 0) (List.replicate 12 0)

/-- `wirePayload` with its final (tag) byte flipped: tampered ciphertext
under the correct password. -/
def tamperedPayload : List Nat :=
  wirePayload.dropLast ++ [9]

/-- C8 counterexample: decrypting `wirePayload` with the wrong password
"b" and decrypting `tamperedPayload` with the correct password "aa"
raise the SAME error — `ValueError("Decryption failed. Wrong password or
corrupted data.")` — so wrong key and tampered ciphertext are not
distinct errors; only truncated input gets a distinct one. -/
theorem c8_counterexample :
    decryptData toyPrims wirePayload "b"
      = .error (.valueError "Decryption failed. Wrong password or corrupted data.") ∧
    decryptData toyPrims tamperedPayload "aa"
      = .error (.valueError "Decryption failed. Wrong password or corrupted data.") ∧
    decryptData toyPrims wirePayload "b" = decryptData toyPrims tamperedPayload "aa" := by
  refine ⟨?_, ?_, ?_⟩ <;> rfl

/-- C8 (amended): decryption distinguishes exactly TWO failure causes as
distinct errors: truncated input (under 28 bytes) raises
`ValueError("Data too short to be encrypted.")`, and any AEAD
authentication failure — wrong key or tampered/corrupted ciphertext
alike — raises the single distinct
`ValueError("Decryption failed. Wrong password or corrupted data.")`;
wrong key and tampering are not distinguishable from each other. -/
theorem c8_two_failure_causes (P : AeadPrims) (data : List Nat) (password : String)
    (hlen : ¬ data.length < 28)
    (hauth : P.dec (P.derive password (data.take 16)) ((data.drop 16).take 12)
      (data.drop 28) = none) :
    (∀ d : List Nat, d.length < 28 →
      decryptData P d password = .error (.valueError "Data too short to be encrypted.")) ∧
    decryptData P data password
      = .error (.valueError "Decryption failed. Wrong password or corrupted data.") ∧
    PyErr.valueError "Data too short to be encrypted."
      ≠ .valueError "Decryption failed. Wrong password or corrupted data." := by
  refine ⟨?_, ?_, ?_⟩
  · intro d hd
    unfold decryptData
    rw [if_pos hd]
  · unfold decryptData
    rw [if_neg hlen]
    show (match P.dec (P.derive password (data.take 16)) ((data.drop 16).take 12)
        (data.drop 28) with
      | none =>
        Except.error (PyErr.valueError "Decryption failed. Wrong password or corrupted data.")
      | some out => Except.ok out)
      = Except.error (PyErr.valueError "Decryption failed. Wrong password or corrupted data.")
    rw [hauth]
  · decide

/-- Witness for C8 (amended), on the wrong-password payload. -/
theorem c8_two_failure_causes_witness :
    (∀ d : List Nat, d.length < 28 →
      decryptData toyPrims d "b" = .error (.valueError "Data too short to be encrypted.")) ∧
    decryptData toyPrims wirePayload "b"
      = .error (.valueError "Decryption failed. Wrong password or corrupted data.") ∧
    PyErr.valueError "Data too short to be encrypted."
      ≠ .valueError "Decryption failed. Wrong password or corrupted data." :=
  c8_two_failure_causes toyPrims wirePayload "b" (by decide) (by decide)

/-!  ## Wrong-key detection

`decrypt_chunk` (`src/encryption.py`, lines 75-91) wraps `Fernet.decrypt`
and converts any failure to `EncryptionError`; `decrypt_data`
(`src/core/crypto.py`) flags the failure too, but with `ValueError` — it
never touches the `EncryptionError` class at all.  -/

/-- Abstract Fernet primitives (`cryptography.fernet`): the token layout
is opaque; `dec` returns `none` where the library raises `InvalidToken`,
which AEAD authentication guarantees under a wrong key. -/
structure FernetPrims where
  enc : String → List Nat → List Nat
  dec : String → List Nat → Option (List Nat)

/-- `decrypt_chunk` (`src/encryption.py`, lines 75-91): `InvalidToken`
becomes `EncryptionError("Encrypted chunk integrity check failed.")`. -/
def decryptChunk (F : FernetPrims) (data : List Nat) (key : String) :
    Except PyErr (List Nat) :=
  match F.dec key data with
  | some m => .ok m
  | none => .error (.encryptionError "Encrypted chunk integrity check failed.")

/-- C9 counterexample: `decrypt_data` under a wrong password flags the
failure with `ValueError`, not `EncryptionError` — the claim's "always
raises EncryptionError" fails for `decrypt_data`, which never references
that class. -/
theorem c9_counterexample :
    decryptData toyPrims wirePayload "b"
      = .error (.valueError "Decryption failed. Wrong password or corrupted data.") ∧
    (PyErr.valueError "Decryption failed. Wrong password or corrupted data.").isEncryptionError
      = false := by
  exact ⟨rfl, rfl⟩

/-- C9 (amended): wrong-key decryption is always flagged and never
returns plaintext: whenever the authenticated cipher rejects the token
produced under a different key (Fernet's `InvalidToken`, AESGCM's
`InvalidTag`), `decrypt_chunk` raises
`EncryptionError("Encrypted chunk integrity check failed.")` and
`decrypt_data` raises `ValueError("Decryption failed. Wrong password or
corrupted data.")` — neither ever returns `ok`. -/
theorem c9_wrong_key_always_flagged (F : FernetPrims) (P : AeadPrims)
    (key wrongKey : String) (m data : List Nat) (password : String)
    (hF : F.dec wrongKey (F.enc key m) = none)
    (hlen : ¬ data.length < 28)
    (hP : P.dec (P.derive password (data.take 16)) ((data.drop 16).take 12)
      (data.drop 28) = none) :
    decryptChunk F (F.enc key m) wrongKey
      = .error (.encryptionError "Encrypted chunk integrity check failed.") ∧
    (∀ out, decryptChunk F (F.enc key m) wrongKey ≠ .ok out) ∧
    decryptData P data password
      = .error (.valueError "Decryption failed. Wrong password or corrupted data.") ∧
    (∀ out, decryptData P data password ≠ .ok out) := by
  have h1 : decryptChunk F (F.enc key m) wrongKey
      = .error (.encryptionError "Encrypted chunk integrity check failed.") := by
    unfold decryptChunk
    rw [hF]
  have h2 : decryptData P data password
      = .error (.valueError "Decryption failed. Wrong password or corrupted data.") := by
    unfold decryptData
    rw [if_neg hlen]
    show (match P.dec (P.derive password (data.take 16)) ((data.drop 16).take 12)
        (data.drop 28) with
      | none =>
        Except.error (PyErr.valueError "Decryption failed. Wrong password or corrupted data.")
      | some out => Except.ok out)
      = Except.error (PyErr.valueError "Decryption failed. Wrong password or corrupted data.")
    rw [hP]
  refine ⟨h1, ?_, h2, ?_⟩
  · intro out h
    rw [h1] at h
    cases h
  · intro out h
    rw [h2] at h
    cases h

/-- Concrete Fernet instance for the C9 witness: tokens carry a key tag;
under key "a" the tag is 0 and under any other key 1, so decrypting an
"a"-token with key "b" is rejected. -/
def toyFernet : FernetPrims where
  enc k m := m ++ [if k = "a" then 0 else 1]
  dec k c :=
    if c.getLast? = some (if k = "a" then 0 else 1) then some c.dropLast else none

/-- Witness for C9 (amended): a chunk encrypted under key "a" and
decrypted with key "b", and the wrong-password AES-GCM payload. -/
theorem c9_wrong_key_always_flagged_witness :
    decryptChunk toyFernet (toyFernet.enc "a" [5]) "b"
      = .error (.encryptionError "Encrypted chunk integrity check failed.") ∧
    (∀ out, decryptChunk toyFernet (toyFernet.enc "a" [5]) "b" ≠ .ok out) ∧
    decryptData toyPrims wirePayload "b"
      = .error (.valueError "Decryption failed. Wrong password or corrupted data.") ∧
    (∀ out, decryptData toyPrims wirePayload "b" ≠ .ok out) :=
  c9_wrong_key_always_flagged toyFernet toyPrims "a" "b" [5] wirePayload "b"
    (by decide) (by decide) (by decide)

/-!  ## Safe archive extraction

`_safe_extract` (`src/file_processor.py`, lines 47-59), the fallback of
`extract_archive` (lines 126-139) on Pythons without `filter="data"`:
walk the members in order; raise `StorageBotError` for a hard link or
symlink; resolve `(output_path / member.name)` and raise
`StorageBotError` unless `_is_within_directory` (lines 39-45) holds, i.e.
the resolved target is relative to the resolved destination; only then
extract the member.  Paths are modelled as component lists and
`Path.resolve` as the fold eliminating `.` and `..`.  -/

/-- One tar archive member: its name split into path components (which
may include `..` and `.`), and whether it is a hard link or symlink. -/
structure TarMember where
  name : List String
  isLink : Bool
deriving DecidableEq, Repr

/-- `(output_path / member.name).resolve()`: starting from the already
resolved destination, `..` pops a component, `.` is dropped, anything
else is appended. -/
def resolvePath (base : List String) (comps : List String) : List String :=
  comps.foldl
    (fun acc c =>
      if c = ".." then acc.dropLast
      else if c = "." then acc
      else acc ++ [c])
    base

/-- `_is_within_directory` (`src/file_processor.py`, lines 39-45):
`target.relative_to(base)` succeeds exactly when `base` is a path prefix
of `target`. -/
def isWithinDirectory (base target : List String) : Bool :=
  base.isPrefixOf target

/-- `_safe_extract` (`src/file_processor.py`, lines 47-59): returns the
resolved targets extracted before any violation, plus the error raised,
if one was.  Members after a rejected one are not reached. -/
def safeExtract (base : List String) : List TarMember → List (List String) × Option PyErr
  | [] => ([], none)
  | m :: rest =>
    if m.isLink then
      ([], some (.storageBotError "Blocked unsafe link in archive"))
    else
      let target := resolvePath base m.name
      if isWithinDirectory base target then
        let r := safeExtract base rest
        (target :: r.1, r.2)
      else ([], some (.storageBotError "Blocked path traversal in archive"))

/-- A member is unsafe when it is a link or its resolved target escapes
the destination. -/
def UnsafeMember (base : List String) (m : TarMember) : Prop :=
  m.isLink = true ∨ isWithinDirectory base (resolvePath base m.name) = false

instance (base : List String) (m : TarMember) : Decidable (UnsafeMember base m) := by
  unfold UnsafeMember
  infer_instance

theorem safeExtract_within (base : List String) (members : List TarMember) :
    ∀ t ∈ (safeExtract base members).1, isWithinDirectory base t = true := by
  induction members with
  | nil => intro t ht; cases ht
  | cons m rest ih =>
    intro t ht
    unfold safeExtract at ht
    by_cases hl : m.isLink
    · simp [hl] at ht
    · by_cases hw : isWithinDirectory base (resolvePath base m.name) = true
      · simp only [hl, if_false, hw, if_true] at ht
        rcases List.mem_cons.mp ht with h1 | h2
        · rw [h1]; exact hw
        · exact ih t h2
      · simp [hl, hw] at ht

theorem safeExtract_unsafe_raises (base : List String) (members : List TarMember)
    (h : ∃ m ∈ members, UnsafeMember base m) :
    (safeExtract base members).2.isSome = true := by
  induction members with
  | nil =>
    obtain ⟨m, hm, _⟩ := h
    cases hm
  | cons m rest ih =>
    unfold safeExtract
    by_cases hl : m.isLink
    · simp [hl]
    · by_cases hw : isWithinDirectory base (resolvePath base m.name) = true
      · simp only [hl, if_false, hw, if_true]
        obtain ⟨m2, hm2, hu⟩ := h
        rcases List.mem_cons.mp hm2 with h1 | h2
        · exfalso
          subst h1
          rcases hu with hlink | hesc
          · exact hl hlink
          · rw [hw] at hesc; cases hesc
        · exact ih ⟨m2, h2, hu⟩
      · simp [hl, hw]

/-- When every member is safe, nothing is raised and every member's
resolved target is extracted, in order. -/
theorem safeExtract_all_safe (base : List String) (members : List TarMember)
    (h : ∀ m ∈ members, ¬ UnsafeMember base m) :
    safeExtract base members
      = (members.map (fun m => resolvePath base m.name), none) := by
  induction members with
  | nil => rfl
  | cons m rest ih =>
    have hm := h m (by simp)
    have hl : m.isLink = false := by
      cases hval : m.isLink
      · rfl
      · exact absurd (Or.inl hval) hm
    have hw : isWithinDirectory base (resolvePath base m.name) = true := by
      cases hval : isWithinDirectory base (resolvePath base m.name)
      · exact absurd (Or.inr hval) hm
      · rfl
    unfold safeExtract
    rw [ih (fun m2 hm2 => h m2 (by simp [hm2]))]
    simp [hl, hw]

/-- C10: archive extraction never writes outside the destination
directory: for every tar archive, `_safe_extract` raises
`StorageBotError` whenever some member is a hard link, a symlink, or
resolves outside the resolved destination (the raise happening before
that member is extracted), every target it does extract lies inside the
destination, and an all-safe archive is extracted completely with no
error. -/
theorem c10_safe_extract (base : List String) (members : List TarMember) :
    (∀ t ∈ (safeExtract base members).1, isWithinDirectory base t = true) ∧
    ((∃ m ∈ members, UnsafeMember base m) →
      ((safeExtract base members).2.isSome = true ∧
        ¬ ∃ m ∈ members, UnsafeMember base m ∧
          resolvePath base m.name ∈ (safeExtract base members).1 ∧ m.isLink = false ∧
          isWithinDirectory base (resolvePath base m.name) = false)) ∧
    ((∀ m ∈ members, ¬ UnsafeMember base m) →
      safeExtract base members
        = (members.map (fun m => resolvePath base m.name), none)) := by
  refine ⟨safeExtract_within base members, ?_, safeExtract_all_safe base members⟩
  intro h
  refine ⟨safeExtract_unsafe_raises base members h, ?_⟩
  rintro ⟨m, _, _, hmem, _, hesc⟩
  have := safeExtract_within base members _ hmem
  rw [this] at hesc
  cases hesc

/-- Witness for C10: a destination `["dst"]` and an archive holding one
safe member, one path-traversal member (`../../etc/passwd`) and one
symlink: extraction raises, every extracted target stays inside the
destination, and the same extractor maps an all-safe archive fully. -/
theorem c10_safe_extract_witness :
    ((safeExtract ["dst"]
        [{ name := ["a.txt"], isLink := false },
         { name := ["..", "..", "etc", "passwd"], isLink := false },
         { name := ["b.txt"], isLink := true }]).2.isSome = true) ∧
    (∀ t ∈ (safeExtract ["dst"]
        [{ name := ["a.txt"], isLink := false },
         { name := ["..", "..", "etc", "passwd"], isLink := false },
         { name := ["b.txt"], isLink := true }]).1,
      isWithinDirectory ["dst"] t = true) ∧
    safeExtract ["dst"] [{ name := ["c.txt"], isLink := false }]
      = ([["dst", "c.txt"]], none) := by
  refine ⟨((c10_safe_extract ["dst"]
      [{ name := ["a.txt"], isLink := false },
       { name := ["..", "..", "etc", "passwd"], isLink := false },
       { name := ["b.txt"], isLink := true }]).2.1
        ⟨{ name := ["..", "..", "etc", "passwd"], isLink := false }, by decide, by decide⟩).1,
    (c10_safe_extract ["dst"]
      [{ name := ["a.txt"], isLink := false },
       { name := ["..", "..", "etc", "passwd"], isLink := false },
       { name := ["b.txt"], isLink := true }]).1, ?_⟩
  have h := (c10_safe_extract ["dst"] [{ name := ["c.txt"], isLink := false }]).2.2
    (by decide)
  rw [h]
  rfl

end DOS
